import Mathlib

/-!
Verification of the chat API route (`src/app/api/chat/route.js`): the
request assembler (content-part construction from message and file
attachments) and the fallback dispatcher (ordered model attempts with
backoff, early stop on non-retryable client errors, and final error
classification from the last failing outcome).

The upstream model call is abstracted as a function from attempt index to
an outcome (a response text or a raised error object with optional numeric
status and optional message), since its behavior is external to the
repository.  All string operations are modelled on the character list of
the string, matching JavaScript semantics (`split(",")[1]`,
`replace(/\s+/g, "")`, `trim`, `toLowerCase`, `includes`, `startsWith`).
-/

namespace ChatRoute

/-- `const RETRY_DELAY = 1000` (milliseconds). -/
def RETRY_DELAY : Nat := 1000

/-- JavaScript `\s` character class (ASCII part plus the Unicode space
    characters it matches). -/
def jsIsSpace (c : Char) : Bool :=
  c = ' ' || c = '\t' || c = '\n' || c = '\r' ||
  c.val = 0x0b || c.val = 0x0c ||
  c.val = 0xa0 || c.val = 0x1680 ||
  (0x2000 ≤ c.val && c.val ≤ 0x200a) ||
  c.val = 0x2028 || c.val = 0x2029 || c.val = 0x202f ||
  c.val = 0x205f || c.val = 0x3000 || c.val = 0xfeff

/-- `s.replace(/\s+/g, "")`: remove every whitespace character. -/
def stripWs (s : String) : String :=
  ⟨s.data.filter (fun c => !jsIsSpace c)⟩

/-- `s.trim()`: drop leading and trailing whitespace. -/
def jsTrim (s : String) : String :=
  ⟨((s.data.dropWhile jsIsSpace).reverse.dropWhile jsIsSpace).reverse⟩

/-- Whether the first list is an initial segment of the second. -/
def leadEq : List Char → List Char → Bool
  | [], _ => true
  | _ :: _, [] => false
  | a :: as, b :: bs => a = b && leadEq as bs

/-- `hay.includes(needle)` on character lists. -/
def occursIn (needle : List Char) : List Char → Bool
  | [] => leadEq needle []
  | c :: cs => leadEq needle (c :: cs) || occursIn needle cs

/-- `s.startsWith(pre)`. -/
def strStarts (s pre : String) : Bool := leadEq pre.data s.data

/-- `s.toLowerCase()` (character-wise). -/
def lowerStr (s : String) : String := ⟨s.data.map Char.toLower⟩

/-- `s.toLowerCase().includes(needle)` for a lowercase needle. -/
def lowerOccurs (needle s : String) : Bool :=
  occursIn needle.data (lowerStr s).data

/-- `s.split(sep)` on character lists: the list of segments between
    occurrences of `sep`. -/
def splitChar (sep : Char) : List Char → List (List Char)
  | [] => [[]]
  | c :: cs =>
    if c = sep then [] :: splitChar sep cs
    else
      match splitChar sep cs with
      | [] => [[c]]
      | h :: t => (c :: h) :: t

/-- One entry of the request's `files` array.  `none` models an absent
    (or `null`/`undefined`) field. -/
structure FileAttachment where
  name : Option String
  type : Option String
  data : Option String
deriving DecidableEq

/-- One element of the `contents` array sent upstream: either an
    `inlineData` image part or a plain text prompt. -/
inductive ContentPart
  | image (data : String) (mimeType : String)
  | text (s : String)
deriving DecidableEq

/-- JavaScript falsiness of an optional string: absent or empty. -/
def jsFalsyStr : Option String → Bool
  | none => true
  | some s => s = ""

/-- The data-cleaning steps applied to `file.data`:
    `if (base64Data.includes(",")) base64Data = base64Data.split(",")[1];`
    then `base64Data = base64Data.replace(/\s+/g, "")`. -/
def cleanData (d : String) : String :=
  let cs := d.data
  let cs1 := if cs.contains ',' then ((splitChar ',' cs).getD 1 []) else cs
  ⟨cs1.filter (fun c => !jsIsSpace c)⟩

/-- Processing of one attachment inside the `for (const file of files)`
    loop: the type filter, the missing-data skip, the cleaning, the
    empty-remainder skip, and the `contents.push({inlineData: ...})`. -/
def processFile (f : FileAttachment) : Option ContentPart :=
  if jsFalsyStr f.type then none
  else if !strStarts (f.type.getD "") "image/" then none
  else if jsFalsyStr f.data then none
  else
    let cleaned := cleanData (f.data.getD "")
    if cleaned = "" then none
    else some (.image cleaned (f.type.getD ""))

/-- The image parts pushed onto `contents` before the text prompt is
    considered (the whole loop, including the `Array.isArray` guard). -/
def emittedImages (files : Option (List FileAttachment)) : List ContentPart :=
  match files with
  | none => []
  | some fs => fs.filterMap processFile

/-- The substituted default prompt. -/
def DEFAULT_PROMPT : String := "What is in this image?"

/-- `message?.trim() || (contents.length > 0 ? "What is in this image?" : null)`. -/
def effPrompt (message : Option String) (imgCount : Nat) : Option String :=
  let m := jsTrim (message.getD "")
  if m ≠ "" then some m
  else if imgCount > 0 then some DEFAULT_PROMPT
  else none

/-- The full `contents` array: image parts in input order, then the text
    prompt (if any) appended last. -/
def buildContents (message : Option String)
    (files : Option (List FileAttachment)) : List ContentPart :=
  let imgs := emittedImages files
  match effPrompt message imgs.length with
  | some p => imgs ++ [ContentPart.text p]
  | none => imgs

/-- The error object caught from an upstream attempt: `apiError.status`
    (absent for network errors and locally thrown errors) and
    `apiError.message`. -/
structure ApiError where
  status : Option Nat
  message : Option String
deriving DecidableEq

/-- The outcome of one `ai.models.generateContent` call: either it
    resolves with a `response.text` (possibly empty/missing, modelled as
    `""`), or it raises an error object. -/
inductive AttemptOutcome
  | success (text : String)
  | failure (e : ApiError)

/-- The error thrown by
    `throw new Error("No text response received from API")`. -/
def NO_TEXT_ERROR : ApiError :=
  ⟨none, some "No text response received from API"⟩

/-- `status >= 400 && status < 500 && status !== 429 && status !== 404`;
    `undefined >= 400` is false in JavaScript, so an absent status never
    stops the chain. -/
def isNonRetryable (status : Option Nat) : Bool :=
  match status with
  | some s => 400 ≤ s && s < 500 && s ≠ 429 && s ≠ 404
  | none => false

/-- How the retry loop ends: an early `return Response.json({response})`
    with the first successful text, or falling out of the loop (by
    exhaustion or by `break`) with the final `lastError`. -/
inductive LoopExit
  | returned (text : String)
  | exhausted (lastError : Option ApiError)
deriving DecidableEq

/-- `if (attempt > 0) await delay(RETRY_DELAY * attempt)`: the wait
    performed before the attempt at index `i`. -/
def delayBefore (i : Nat) : Nat := if i = 0 then 0 else RETRY_DELAY * i

/-- The retry loop from attempt index `i` with `fuel` attempts remaining
    (`fuel = MODELS.length - i` at entry).  Returns the exit and the trace
    of attempts actually made, each as (attempt index, delay waited before
    it).  An empty `response.text` raises `NO_TEXT_ERROR`, caught by the
    same `catch`; a non-retryable status breaks out of the loop. -/
def runFrom (outcomes : Nat → AttemptOutcome) :
    Nat → Nat → Option ApiError → LoopExit × List (Nat × Nat)
  | 0, _, le => (.exhausted le, [])
  | fuel + 1, i, _ =>
    let d := delayBefore i
    match outcomes i with
    | .success text =>
      if text = "" then
        let r := runFrom outcomes fuel (i + 1) (some NO_TEXT_ERROR)
        (r.1, (i, d) :: r.2)
      else (.returned text, [(i, d)])
    | .failure e =>
      if isNonRetryable e.status then (.exhausted (some e), [(i, d)])
      else
        let r := runFrom outcomes fuel (i + 1) (some e)
        (r.1, (i, d) :: r.2)

/-- The caller-visible result: `Response.json({response})` with status
    200, or `Response.json({error, details?}, {status})`. -/
inductive PostResult
  | okResp (response : String)
  | errResp (status : Nat) (error : String) (details : Option String)
deriving DecidableEq

/-- `errorMessage.toLowerCase().includes("rate limit") || ...("quota")`. -/
def isRateLimitMsg (m : String) : Bool :=
  lowerOccurs "rate limit" m || lowerOccurs "quota" m

/-- `errorMessage.toLowerCase().includes("api key") || ...("authentication")`. -/
def isAuthMsg (m : String) : Bool :=
  lowerOccurs "api key" m || lowerOccurs "authentication" m

/-- `lastError?.message || "Unknown error"` (empty string is falsy). -/
def jsStrOr (s : Option String) (d : String) : String :=
  match s with
  | some v => if v = "" then d else v
  | none => d

/-- The "All retries failed" tail of the handler: classify
    `lastError?.message` and shape the error response. -/
def finalFailure (lastError : Option ApiError) : PostResult :=
  let errorMessage := jsStrOr (lastError.bind ApiError.message) "Unknown error"
  if isRateLimitMsg errorMessage then
    .errResp 429 "Rate limit exceeded. Please wait a moment and try again."
      (some errorMessage)
  else if isAuthMsg errorMessage then
    .errResp 401
      "API authentication failed. Please check your API key configuration."
      (some errorMessage)
  else
    .errResp 500 "Failed to generate response from API." (some errorMessage)

/-- The hard-coded fallback chain. -/
def MODELS : List String :=
  ["gemini-3-flash-preview", "gemini-2.5-flash", "gemini-2.5-flash-lite",
   "gemini-2.5-flash-tts", "gemma-3-27b-it"]

/-- The `POST` handler after the API-key and JSON-parse guards: assemble
    `contents`, reject an empty assembly with 400, otherwise run the
    retry loop over the model list (`attempt` from `0` to
    `MODELS.length - 1`) and shape the response.  Returns the result
    together with the attempt trace. -/
def POST (message : Option String) (files : Option (List FileAttachment))
    (outcomes : Nat → AttemptOutcome) (models : List String) :
    PostResult × List (Nat × Nat) :=
  let contents := buildContents message files
  if contents.length = 0 then
    (.errResp 400 "No content provided. Please include a message or image."
      none, [])
  else
    let r := runFrom outcomes models.length 0 none
    match r.1 with
    | .returned t => (.okResp t, r.2)
    | .exhausted le => (finalFailure le, r.2)

/-- The route as shipped, with the fixed model list. -/
def routePOST (message : Option String) (files : Option (List FileAttachment))
    (outcomes : Nat → AttemptOutcome) : PostResult × List (Nat × Nat) :=
  POST message files outcomes MODELS

end ChatRoute

namespace ChatRoute

/-! ### Step lemmas for the retry loop -/

theorem runFrom_zero (o : Nat → AttemptOutcome) (i : Nat) (le : Option ApiError) :
    runFrom o 0 i le = (.exhausted le, []) := rfl

theorem runFrom_success_step (o : Nat → AttemptOutcome) (fuel i : Nat)
    (le : Option ApiError) (t : String) (ho : o i = .success t) (ht : t ≠ "") :
    runFrom o (fuel + 1) i le = (.returned t, [(i, delayBefore i)]) := by
  simp only [runFrom, ho, if_neg ht]

theorem runFrom_empty_text_step (o : Nat → AttemptOutcome) (fuel i : Nat)
    (le : Option ApiError) (ho : o i = .success "") :
    runFrom o (fuel + 1) i le =
      ((runFrom o fuel (i + 1) (some NO_TEXT_ERROR)).1,
        (i, delayBefore i) :: (runFrom o fuel (i + 1) (some NO_TEXT_ERROR)).2) := by
  simp only [runFrom, ho, if_pos rfl, if_true]

theorem runFrom_break_step (o : Nat → AttemptOutcome) (fuel i : Nat)
    (le : Option ApiError) (e : ApiError) (ho : o i = .failure e)
    (hb : isNonRetryable e.status = true) :
    runFrom o (fuel + 1) i le = (.exhausted (some e), [(i, delayBefore i)]) := by
  simp only [runFrom, ho, hb, if_pos]

theorem runFrom_retry_step (o : Nat → AttemptOutcome) (fuel i : Nat)
    (le : Option ApiError) (e : ApiError) (ho : o i = .failure e)
    (hb : isNonRetryable e.status = false) :
    runFrom o (fuel + 1) i le =
      ((runFrom o fuel (i + 1) (some e)).1,
        (i, delayBefore i) :: (runFrom o fuel (i + 1) (some e)).2) := by
  simp only [runFrom, ho, hb, if_neg]
  simp

end ChatRoute

namespace ChatRoute

/-! ### Structural lemmas for the retry loop -/

/-- The error object retained in `lastError` when an attempt fails: the
    caught upstream error, or `NO_TEXT_ERROR` for an empty response text. -/
def errObj : AttemptOutcome → ApiError
  | .success _ => NO_TEXT_ERROR
  | .failure e => e

/-- An outcome that makes the loop move on to the next model: an empty
    response text, or an error whose status does not break the chain. -/
def failsRetryably : AttemptOutcome → Bool
  | .success t => t = ""
  | .failure e => !isNonRetryable e.status

theorem runFrom_trace_eq (o : Nat → AttemptOutcome) :
    ∀ fuel i le, (runFrom o fuel i le).2 =
      (List.range' i (runFrom o fuel i le).2.length).map
        (fun j => (j, delayBefore j)) := by
  intro fuel
  induction fuel with
  | zero => intro i le; rfl
  | succ k ih =>
    intro i le
    cases ho : o i with
    | success t =>
      by_cases ht : t = ""
      · subst ht
        rw [runFrom_empty_text_step o k i le ho]
        simp only [List.length_cons]
        rw [List.range'_succ]
        simp only [List.map_cons, List.cons.injEq, true_and]
        exact ih (i + 1) (some NO_TEXT_ERROR)
      · rw [runFrom_success_step o k i le t ho ht]
        rfl
    | failure e =>
      by_cases hb : isNonRetryable e.status = true
      · rw [runFrom_break_step o k i le e ho hb]
        rfl
      · rw [runFrom_retry_step o k i le e ho (by simpa using hb)]
        simp only [List.length_cons]
        rw [List.range'_succ]
        simp only [List.map_cons, List.cons.injEq, true_and]
        exact ih (i + 1) (some e)

theorem runFrom_trace_ne_nil (o : Nat → AttemptOutcome) (fuel i : Nat)
    (le : Option ApiError) : (runFrom o (fuel + 1) i le).2 ≠ [] := by
  cases ho : o i with
  | success t =>
    by_cases ht : t = ""
    · subst ht; rw [runFrom_empty_text_step o fuel i le ho]; simp
    · rw [runFrom_success_step o fuel i le t ho ht]; simp
  | failure e =>
    by_cases hb : isNonRetryable e.status = true
    · rw [runFrom_break_step o fuel i le e ho hb]; simp
    · rw [runFrom_retry_step o fuel i le e ho (by simpa using hb)]; simp

theorem runFrom_no_empty_return (o : Nat → AttemptOutcome) :
    ∀ fuel i le, (runFrom o fuel i le).1 ≠ .returned "" := by
  intro fuel
  induction fuel with
  | zero => intro i le; simp [runFrom_zero]
  | succ k ih =>
    intro i le
    cases ho : o i with
    | success t =>
      by_cases ht : t = ""
      · subst ht
        rw [runFrom_empty_text_step o k i le ho]
        exact ih (i + 1) (some NO_TEXT_ERROR)
      · rw [runFrom_success_step o k i le t ho ht]
        simpa using ht
    | failure e =>
      by_cases hb : isNonRetryable e.status = true
      · rw [runFrom_break_step o k i le e ho hb]; simp
      · rw [runFrom_retry_step o k i le e ho (by simpa using hb)]
        exact ih (i + 1) (some e)

theorem runFrom_all_fail (o : Nat → AttemptOutcome) :
    ∀ fuel i le, (∀ j, j ≤ fuel → failsRetryably (o (i + j)) = true) →
      (runFrom o (fuel + 1) i le).1 = .exhausted (some (errObj (o (i + fuel)))) := by
  intro fuel
  induction fuel with
  | zero =>
    intro i le h
    have h0 := h 0 (Nat.le_refl 0)
    rw [Nat.add_zero] at h0 ⊢
    cases ho : o i with
    | success t =>
      have ht : t = "" := by
        rw [ho] at h0; simpa [failsRetryably] using h0
      subst ht
      rw [runFrom_empty_text_step o 0 i le ho, runFrom_zero]
      simp [ho, errObj]
    | failure e =>
      have hb : isNonRetryable e.status = false := by
        rw [ho] at h0; simpa [failsRetryably] using h0
      rw [runFrom_retry_step o 0 i le e ho hb, runFrom_zero]
      simp [ho, errObj]
  | succ k ih =>
    intro i le h
    have h0 := h 0 (Nat.zero_le _)
    rw [Nat.add_zero] at h0
    have hshift : ∀ j, j ≤ k → failsRetryably (o (i + 1 + j)) = true := by
      intro j hj
      have := h (j + 1) (by omega)
      rwa [show i + (j + 1) = i + 1 + j by omega] at this
    have hgoal : i + (k + 1) = i + 1 + k := by omega
    cases ho : o i with
    | success t =>
      have ht : t = "" := by
        rw [ho] at h0; simpa [failsRetryably] using h0
      subst ht
      rw [runFrom_empty_text_step o (k + 1) i le ho]
      rw [hgoal]
      exact ih (i + 1) (some NO_TEXT_ERROR) hshift
    | failure e =>
      have hb : isNonRetryable e.status = false := by
        rw [ho] at h0; simpa [failsRetryably] using h0
      rw [runFrom_retry_step o (k + 1) i le e ho hb]
      rw [hgoal]
      exact ih (i + 1) (some e) hshift

end ChatRoute

namespace ChatRoute

/-! ### Lemmas about the request assembler -/

theorem processFile_eq_some (f : FileAttachment) (p : ContentPart)
    (h : processFile f = some p) :
    ∃ d t, p = .image d t ∧ strStarts t "image/" = true ∧ d ≠ "" := by
  simp only [processFile] at h
  split_ifs at h with h1 h2 h3 h4
  all_goals simp only [Option.some.injEq, reduceCtorEq] at h
  exact ⟨cleanData (f.data.getD ""), f.type.getD "", h.symm, by simpa using h2, h4⟩

theorem filterMap_filter_isSome {α β : Type} (g : α → Option β) :
    ∀ l : List α, (l.filter (fun x => (g x).isSome)).filterMap g = l.filterMap g := by
  intro l
  induction l with
  | nil => rfl
  | cons a l ih =>
    cases hg : g a with
    | none => simp [List.filter_cons, List.filterMap_cons, hg, ih]
    | some b => simp [List.filter_cons, List.filterMap_cons, hg, ih]

theorem mem_emittedImages (files : Option (List FileAttachment))
    (p : ContentPart) (hp : p ∈ emittedImages files) :
    ∃ d t, p = .image d t := by
  cases files with
  | none => simp [emittedImages] at hp
  | some fs =>
    simp only [emittedImages, List.mem_filterMap] at hp
    obtain ⟨f, _, hf⟩ := hp
    obtain ⟨d, t, hdt, _, _⟩ := processFile_eq_some f p hf
    exact ⟨d, t, hdt⟩

/-! ### Lemmas about comma splitting -/

theorem splitChar_no_sep (sep : Char) :
    ∀ cs : List Char, cs.contains sep = false → splitChar sep cs = [cs] := by
  intro cs
  induction cs with
  | nil => intro; rfl
  | cons c cs ih =>
    intro h
    simp only [List.contains_cons, Bool.or_eq_false_iff, beq_eq_false_iff_ne,
      ne_eq] at h
    have hc : ¬c = sep := fun hc => h.1 hc.symm
    simp only [splitChar, if_neg hc, ih h.2]

theorem splitChar_append (sep : Char) :
    ∀ as bs : List Char, as.contains sep = false →
      splitChar sep (as ++ sep :: bs) = as :: splitChar sep bs := by
  intro as
  induction as with
  | nil =>
    intro bs _
    simp [splitChar]
  | cons a as ih =>
    intro bs h
    simp only [List.contains_cons, Bool.or_eq_false_iff, beq_eq_false_iff_ne,
      ne_eq] at h
    have ha : ¬a = sep := fun hc => h.1 hc.symm
    simp only [List.cons_append, splitChar, if_neg ha, List.append_eq, ih bs h.2]

/-! ### Monotonicity of the backoff delay -/

theorem delayBefore_strictMono (a b : Nat) (h : a < b) :
    delayBefore a < delayBefore b := by
  simp only [delayBefore, RETRY_DELAY]
  by_cases ha : a = 0 <;> by_cases hb : b = 0 <;> simp [ha, hb] <;> omega

end ChatRoute

namespace ChatRoute

/-! ### POST-level helper lemmas -/

theorem runFrom_trace_length_le (o : Nat → AttemptOutcome) :
    ∀ fuel i le, (runFrom o fuel i le).2.length ≤ fuel := by
  intro fuel
  induction fuel with
  | zero => intro i le; simp [runFrom_zero]
  | succ k ih =>
    intro i le
    cases ho : o i with
    | success t =>
      by_cases ht : t = ""
      · subst ht
        rw [runFrom_empty_text_step o k i le ho]
        simpa using ih (i + 1) (some NO_TEXT_ERROR)
      · rw [runFrom_success_step o k i le t ho ht]; simp
    | failure e =>
      by_cases hb : isNonRetryable e.status = true
      · rw [runFrom_break_step o k i le e ho hb]; simp
      · rw [runFrom_retry_step o k i le e ho (by simpa using hb)]
        simpa using ih (i + 1) (some e)

theorem POST_returned (message : Option String)
    (files : Option (List FileAttachment)) (outcomes : Nat → AttemptOutcome)
    (models : List String) (t : String) (tr : List (Nat × Nat))
    (h : buildContents message files ≠ [])
    (hr : runFrom outcomes models.length 0 none = (.returned t, tr)) :
    POST message files outcomes models = (.okResp t, tr) := by
  simp only [POST, hr]
  rw [if_neg (by simpa [List.length_eq_zero] using h)]

theorem POST_exhausted (message : Option String)
    (files : Option (List FileAttachment)) (outcomes : Nat → AttemptOutcome)
    (models : List String) (le : Option ApiError) (tr : List (Nat × Nat))
    (h : buildContents message files ≠ [])
    (hr : runFrom outcomes models.length 0 none = (.exhausted le, tr)) :
    POST message files outcomes models = (finalFailure le, tr) := by
  simp only [POST, hr]
  rw [if_neg (by simpa [List.length_eq_zero] using h)]

theorem buildContents_hello :
    buildContents (some "hello") none = [ContentPart.text "hello"] := by decide

end ChatRoute

namespace ChatRoute

/-! ### Claim theorems: the fallback dispatcher -/

/-- Claim C1: the dispatcher tries the models strictly in priority order
    starting at index 0, moving past retryable failures, and returns the
    text of the first successful attempt without trying any later model:
    with 3 models, a 503 failure, then a 429 failure, then a success with
    text `t`, exactly the attempts 0, 1, 2 are made in order and `t` is
    returned. -/
theorem claim_C1_priority_order_first_success
    (outcomes : Nat → AttemptOutcome) (models : List String)
    (hm : models.length = 3) (msg0 msg1 : Option String) (t : String)
    (h0 : outcomes 0 = .failure ⟨some 503, msg0⟩)
    (h1 : outcomes 1 = .failure ⟨some 429, msg1⟩)
    (h2 : outcomes 2 = .success t) (ht : t ≠ "") :
    POST (some "hello") none outcomes models =
      (.okResp t, [(0, 0), (1, RETRY_DELAY * 1), (2, RETRY_DELAY * 2)]) := by
  have e1 : runFrom outcomes 1 2 (some ⟨some 429, msg1⟩) =
      (.returned t, [(2, delayBefore 2)]) :=
    runFrom_success_step outcomes 0 2 (some ⟨some 429, msg1⟩) t h2 ht
  have e2 : runFrom outcomes 2 1 (some ⟨some 503, msg0⟩) =
      (.returned t, [(1, delayBefore 1), (2, delayBefore 2)]) := by
    rw [runFrom_retry_step outcomes 1 1 (some ⟨some 503, msg0⟩)
      ⟨some 429, msg1⟩ h1 (show isNonRetryable (some 429) = false by decide), e1]
  have e3 : runFrom outcomes 3 0 none =
      (.returned t, [(0, delayBefore 0), (1, delayBefore 1), (2, delayBefore 2)]) := by
    rw [runFrom_retry_step outcomes 2 0 none ⟨some 503, msg0⟩ h0
      (show isNonRetryable (some 503) = false by decide), e2]
  have hP := POST_returned (some "hello") none outcomes models t
    [(0, delayBefore 0), (1, delayBefore 1), (2, delayBefore 2)]
    (by rw [buildContents_hello]; simp) (by rw [hm]; exact e3)
  rw [hP]
  simp [delayBefore]

/-- Claim C1 witness: the 3-model scenario at concrete inputs. -/
theorem claim_C1_witness :
    POST (some "hello") none
      (fun i => if i = 0 then .failure ⟨some 503, some "server error"⟩
        else if i = 1 then .failure ⟨some 429, some "rate limit"⟩
        else .success "answer") ["a", "b", "c"] =
      (.okResp "answer", [(0, 0), (1, RETRY_DELAY * 1), (2, RETRY_DELAY * 2)]) :=
  claim_C1_priority_order_first_success
    (fun i => if i = 0 then .failure ⟨some 503, some "server error"⟩
      else if i = 1 then .failure ⟨some 429, some "rate limit"⟩
      else .success "answer") ["a", "b", "c"] rfl (some "server error")
    (some "rate limit") "answer" rfl rfl rfl (by decide)

/-- Claim C2: a failure with a status in [400, 500) other than 429 and 404
    stops the chain at once: wherever such a failure occurs, the loop ends
    there without a further attempt; with that failure on the first
    attempt, exactly one attempt is made and the request fails with the
    error classified from that outcome. -/
theorem claim_C2_nonretryable_stops
    (outcomes : Nat → AttemptOutcome) (models : List String)
    (hm : 0 < models.length) (e : ApiError) (s : Nat)
    (h0 : outcomes 0 = .failure e) (hs : e.status = some s)
    (h400 : 400 ≤ s) (h500 : s < 500) (h429 : s ≠ 429) (h404 : s ≠ 404) :
    POST (some "hello") none outcomes models =
      (finalFailure (some e), [(0, 0)]) ∧
    (∀ i fuel le, outcomes i = .failure e →
        runFrom outcomes (fuel + 1) i le =
          (.exhausted (some e), [(i, delayBefore i)])) := by
  obtain ⟨k, hk⟩ : ∃ k, models.length = k + 1 := ⟨models.length - 1, by omega⟩
  have hb : isNonRetryable e.status = true := by
    rw [hs]
    simp only [isNonRetryable, Bool.and_eq_true, decide_eq_true_eq, ne_eq]
    exact ⟨⟨⟨h400, h500⟩, h429⟩, h404⟩
  refine ⟨?_, fun i fuel le hoi => runFrom_break_step outcomes fuel i le e hoi hb⟩
  have hr : runFrom outcomes models.length 0 none =
      (.exhausted (some e), [(0, delayBefore 0)]) := by
    rw [hk]; exact runFrom_break_step outcomes k 0 none e h0 hb
  exact POST_exhausted (some "hello") none outcomes models (some e)
    [(0, delayBefore 0)] (by rw [buildContents_hello]; simp) hr

/-- Claim C2 witness: a 403 on the first attempt, three models available. -/
theorem claim_C2_witness :
    POST (some "hello") none (fun _ => .failure ⟨some 403, some "Forbidden"⟩)
      ["a", "b", "c"] =
      (.errResp 500 "Failed to generate response from API." (some "Forbidden"),
        [(0, 0)]) := by
  have h := claim_C2_nonretryable_stops
    (fun _ => .failure ⟨some 403, some "Forbidden"⟩) ["a", "b", "c"]
    (by decide) ⟨some 403, some "Forbidden"⟩ 403 rfl rfl
    (by decide) (by decide) (by decide) (by decide)
  rw [h.1]; decide

/-- Claim C4: every recorded wait is `RETRY_DELAY * i` before the attempt
    at index `i > 0` and no wait before attempt 0; the waits are strictly
    increasing along the run; with one model exactly one attempt happens,
    with no backoff. -/
theorem claim_C4_backoff_schedule (outcomes : Nat → AttemptOutcome) (n : Nat) :
    (∀ p ∈ (runFrom outcomes n 0 none).2,
        p.2 = if p.1 = 0 then 0 else RETRY_DELAY * p.1) ∧
    ((runFrom outcomes n 0 none).2.map Prod.snd).Pairwise (· < ·) ∧
    (n = 1 → (runFrom outcomes n 0 none).2 = [(0, 0)]) := by
  refine ⟨?_, ?_, ?_⟩
  · intro p hp
    rw [runFrom_trace_eq outcomes n 0 none] at hp
    simp only [List.mem_map] at hp
    obtain ⟨j, _, hj⟩ := hp
    rw [← hj]
    simp [delayBefore]
  · rw [runFrom_trace_eq outcomes n 0 none, List.map_map, List.pairwise_map]
    exact (List.pairwise_lt_range' 0 _ 1 (by simp)).imp
      (fun h => delayBefore_strictMono _ _ h)
  · intro hn
    subst hn
    have hle := runFrom_trace_length_le outcomes 1 0 none
    have hne : (runFrom outcomes 1 0 none).2 ≠ [] :=
      runFrom_trace_ne_nil outcomes 0 0 none
    have hlen : (runFrom outcomes 1 0 none).2.length = 1 := by
      have := List.length_pos.mpr hne
      omega
    have htr := runFrom_trace_eq outcomes 1 0 none
    rw [hlen] at htr
    simpa [delayBefore] using htr

/-- Claim C4 witness: a single-model run makes one attempt with no wait. -/
theorem claim_C4_witness :
    (runFrom (fun _ => AttemptOutcome.success "ok") 1 0 none).2 = [(0, 0)] :=
  (claim_C4_backoff_schedule (fun _ => AttemptOutcome.success "ok") 1).2.2 rfl

end ChatRoute

namespace ChatRoute

theorem finalFailure_ne_ok (le : Option ApiError) (s : String) :
    finalFailure le ≠ .okResp s := by
  simp only [finalFailure]
  split_ifs <;> simp

/-- Claim C3: after all attempts fail, the caller-visible error is shaped
    by case-insensitive inspection of the last failing outcome's message:
    "rate limit"/"quota" give 429, else "api key"/"authentication" give
    401, else 500; details carries that message; only the last outcome
    enters the classification. -/
theorem claim_C3_final_classification
    (outcomes : Nat → AttemptOutcome) (models : List String) (n : Nat)
    (hm : models.length = n + 1)
    (hfail : ∀ j, j ≤ n → failsRetryably (outcomes j) = true)
    (m : String) (hmsg : (errObj (outcomes n)).message = some m)
    (hne : m ≠ "") :
    (POST (some "hello") none outcomes models).1 =
      .errResp
        (if lowerOccurs "rate limit" m || lowerOccurs "quota" m then 429
         else if lowerOccurs "api key" m || lowerOccurs "authentication" m
           then 401 else 500)
        (if lowerOccurs "rate limit" m || lowerOccurs "quota" m then
           "Rate limit exceeded. Please wait a moment and try again."
         else if lowerOccurs "api key" m || lowerOccurs "authentication" m then
           "API authentication failed. Please check your API key configuration."
         else "Failed to generate response from API.")
        (some m) := by
  have hr1 : (runFrom outcomes (n + 1) 0 none).1 =
      .exhausted (some (errObj (outcomes n))) := by
    have h := runFrom_all_fail outcomes n 0 none
      (by intro j hj; simpa using hfail j hj)
    simpa using h
  have hpair : runFrom outcomes models.length 0 none =
      (.exhausted (some (errObj (outcomes n))),
        (runFrom outcomes models.length 0 none).2) := by
    rw [hm]; exact Prod.ext hr1 rfl
  rw [POST_exhausted (some "hello") none outcomes models _ _
    (by rw [buildContents_hello]; simp) hpair]
  simp only [finalFailure, Option.some_bind, hmsg, jsStrOr, if_neg hne,
    isRateLimitMsg, isAuthMsg]
  split_ifs <;> rfl

/-- Claim C3 witness: a single model whose failure message contains
    "quota exceeded" yields a 429 with that message in details. -/
theorem claim_C3_witness :
    (POST (some "hello") none
      (fun _ => .failure ⟨some 500, some "Daily quota exceeded"⟩) ["a"]).1 =
      .errResp 429 "Rate limit exceeded. Please wait a moment and try again."
        (some "Daily quota exceeded") := by
  have h := claim_C3_final_classification
    (fun _ => .failure ⟨some 500, some "Daily quota exceeded"⟩) ["a"] 0 rfl
    (fun j _ => rfl) "Daily quota exceeded" rfl (by decide)
  rw [h]
  decide

/-- Claim C10: a message matching both the rate-limit and the
    authentication keywords is classified as rate-limited: status 429,
    never 401. -/
theorem claim_C10_rate_limit_precedence
    (outcomes : Nat → AttemptOutcome) (models : List String)
    (hm : models.length = 1) (st : Option Nat) (m : String)
    (h0 : outcomes 0 = .failure ⟨st, some m⟩)
    (hrl : isRateLimitMsg m = true) (hauth : isAuthMsg m = true) :
    (POST (some "hello") none outcomes models).1 =
      .errResp 429 "Rate limit exceeded. Please wait a moment and try again."
        (some m) := by
  have hne : m ≠ "" := by
    intro h
    subst h
    simp [isRateLimitMsg, lowerOccurs, lowerStr, occursIn, leadEq] at hrl
  have hr1 : (runFrom outcomes 1 0 none).1 = .exhausted (some ⟨st, some m⟩) := by
    by_cases hb : isNonRetryable st = true
    · rw [runFrom_break_step outcomes 0 0 none ⟨st, some m⟩ h0 hb]
    · rw [runFrom_retry_step outcomes 0 0 none ⟨st, some m⟩ h0
        (by simpa using hb), runFrom_zero]
  have hpair : runFrom outcomes models.length 0 none =
      (.exhausted (some ⟨st, some m⟩),
        (runFrom outcomes models.length 0 none).2) := by
    rw [hm]; exact Prod.ext hr1 rfl
  rw [POST_exhausted (some "hello") none outcomes models _ _
    (by rw [buildContents_hello]; simp) hpair]
  simp only [finalFailure, Option.some_bind, jsStrOr, if_neg hne, hrl,
    if_pos, if_true]

/-- Claim C10 witness: a message matching both keyword families gets 429. -/
theorem claim_C10_witness :
    (POST (some "hello") none
      (fun _ => .failure ⟨some 500, some "api key quota reached"⟩) ["a"]).1 =
      .errResp 429 "Rate limit exceeded. Please wait a moment and try again."
        (some "api key quota reached") :=
  claim_C10_rate_limit_precedence
    (fun _ => .failure ⟨some 500, some "api key quota reached"⟩) ["a"] rfl
    (some 500) "api key quota reached" rfl (by decide) (by decide)

/-- Claim C9: a completed call with no response text is a failure for that
    attempt: the loop never exits with an empty returned text (and POST
    never answers with an empty success); the attempt falls through with
    the synthesized no-text error, and a further attempt is made when a
    model remains. -/
theorem claim_C9_empty_text_is_failure (outcomes : Nat → AttemptOutcome) :
    (∀ fuel i le, (runFrom outcomes fuel i le).1 ≠ .returned "") ∧
    (∀ message files models,
        (POST message files outcomes models).1 ≠ .okResp "") ∧
    (∀ fuel i le, outcomes i = .success "" →
        (runFrom outcomes (fuel + 1) i le).1 =
          (runFrom outcomes fuel (i + 1) (some NO_TEXT_ERROR)).1) ∧
    (∀ fuel i le, outcomes i = .success "" →
        2 ≤ (runFrom outcomes (fuel + 2) i le).2.length) := by
  refine ⟨runFrom_no_empty_return outcomes, ?_, ?_, ?_⟩
  · intro message files models hcon
    by_cases hempty : buildContents message files = []
    · simp [POST, hempty] at hcon
    · cases hr : (runFrom outcomes models.length 0 none).1 with
      | returned t =>
        have hpair : runFrom outcomes models.length 0 none =
            (.returned t, (runFrom outcomes models.length 0 none).2) :=
          Prod.ext hr rfl
        rw [POST_returned message files outcomes models t _ hempty hpair]
          at hcon
        simp only [PostResult.okResp.injEq] at hcon
        exact runFrom_no_empty_return outcomes models.length 0 none
          (by rw [hr, hcon])
      | exhausted le =>
        have hpair : runFrom outcomes models.length 0 none =
            (.exhausted le, (runFrom outcomes models.length 0 none).2) :=
          Prod.ext hr rfl
        rw [POST_exhausted message files outcomes models le _ hempty hpair]
          at hcon
        exact finalFailure_ne_ok le "" hcon
  · intro fuel i le ho
    rw [runFrom_empty_text_step outcomes fuel i le ho]
  · intro fuel i le ho
    rw [runFrom_empty_text_step outcomes (fuel + 1) i le ho]
    have := List.length_pos.mpr
      (runFrom_trace_ne_nil outcomes fuel (i + 1) (some NO_TEXT_ERROR))
    simp only [List.length_cons]
    omega

/-- Claim C9 witness: with every call yielding empty text, the loop does
    not return an empty success and a second attempt is made. -/
theorem claim_C9_witness :
    (runFrom (fun _ => AttemptOutcome.success "") 2 0 none).1 ≠
      LoopExit.returned "" ∧
    2 ≤ (runFrom (fun _ => AttemptOutcome.success "") 2 0 none).2.length :=
  ⟨(claim_C9_empty_text_is_failure (fun _ => AttemptOutcome.success "")).1
      2 0 none,
   (claim_C9_empty_text_is_failure (fun _ => AttemptOutcome.success "")).2.2.2
      0 0 none rfl⟩

end ChatRoute

namespace ChatRoute

/-! ### Claim theorems: the request assembler -/

theorem images_before_last (imgs : List ContentPart)
    (hall : ∀ q ∈ imgs, ∃ d t, q = ContentPart.image d t) (x : ContentPart)
    (i : Nat) (h : i + 1 < (imgs ++ [x]).length) :
    ∃ d t, (imgs ++ [x]).get? i = some (ContentPart.image d t) := by
  simp only [List.length_append, List.length_cons, List.length_nil] at h
  have hlt : i < imgs.length := by omega
  obtain ⟨d, t, hdt⟩ := hall _ (List.get_mem imgs i hlt)
  refine ⟨d, t, ?_⟩
  rw [List.get?_eq_getElem?, List.getElem?_append_left hlt,
    ← List.get?_eq_getElem?, List.get?_eq_get hlt, hdt]

/-- Claim C7: an absent, empty, or whitespace-only message with no
    surviving attachment yields the 400 empty-request response, and no
    upstream attempt is made. -/
theorem claim_C7_empty_request
    (message : Option String) (files : Option (List FileAttachment))
    (outcomes : Nat → AttemptOutcome) (models : List String)
    (hmsg : jsTrim (message.getD "") = "")
    (himg : emittedImages files = []) :
    POST message files outcomes models =
      (.errResp 400 "No content provided. Please include a message or image."
        none, []) := by
  have hb : buildContents message files = [] := by
    simp [buildContents, effPrompt, hmsg, himg]
  simp [POST, hb]

/-- Claim C7 witness: no message and no files. -/
theorem claim_C7_witness :
    POST none none (fun _ => AttemptOutcome.success "hi") ["a"] =
      (.errResp 400 "No content provided. Please include a message or image."
        none, []) :=
  claim_C7_empty_request none none (fun _ => AttemptOutcome.success "hi")
    ["a"] (by decide) rfl

/-- Claim C5: the effective prompt is the trimmed message when that is
    non-empty, else the default prompt when an image part was emitted,
    else absent; any text part sits at the final position, after every
    image part. -/
theorem claim_C5_prompt_rules
    (message : Option String) (files : Option (List FileAttachment)) :
    (∀ i, i + 1 < (buildContents message files).length →
        ∃ d t, (buildContents message files).get? i =
          some (ContentPart.image d t)) ∧
    (jsTrim (message.getD "") ≠ "" →
        (buildContents message files).getLast? =
          some (.text (jsTrim (message.getD "")))) ∧
    (jsTrim (message.getD "") = "" → emittedImages files ≠ [] →
        (buildContents message files).getLast? =
          some (.text DEFAULT_PROMPT)) ∧
    (jsTrim (message.getD "") = "" → emittedImages files = [] →
        buildContents message files = []) := by
  have hall : ∀ q ∈ emittedImages files, ∃ d t, q = ContentPart.image d t :=
    fun q hq => mem_emittedImages files q hq
  by_cases hm : jsTrim (message.getD "") = ""
  · by_cases hi : emittedImages files = []
    · have hb : buildContents message files = [] := by
        simp [buildContents, effPrompt, hm, hi]
      refine ⟨?_, fun hne => absurd hm hne, fun _ hne => absurd hi hne,
        fun _ _ => hb⟩
      intro i hlen
      rw [hb] at hlen
      simp at hlen
    · have hb : buildContents message files =
          emittedImages files ++ [ContentPart.text DEFAULT_PROMPT] := by
        have hpos : 0 < (emittedImages files).length := List.length_pos.mpr hi
        simp [buildContents, effPrompt, hm, hpos]
      refine ⟨?_, fun hne => absurd hm hne,
        fun _ _ => by rw [hb]; exact List.getLast?_concat _,
        fun _ h => absurd h hi⟩
      intro i hlen
      rw [hb] at hlen ⊢
      exact images_before_last _ hall _ i hlen
  · have hb : buildContents message files =
        emittedImages files ++
          [ContentPart.text (jsTrim (message.getD ""))] := by
      simp [buildContents, effPrompt, hm]
    refine ⟨?_, fun _ => by rw [hb]; exact List.getLast?_concat _,
      fun h _ => absurd h hm, fun h _ => absurd h hm⟩
    intro i hlen
    rw [hb] at hlen ⊢
    exact images_before_last _ hall _ i hlen

/-- Claim C5 witness: empty message and one valid image attachment put the
    default prompt text at the final position. -/
theorem claim_C5_witness :
    (buildContents (some "")
      (some [⟨some "f.png", some "image/png", some "AAAA"⟩])).getLast? =
      some (ContentPart.text DEFAULT_PROMPT) :=
  (claim_C5_prompt_rules (some "")
      (some [⟨some "f.png", some "image/png", some "AAAA"⟩])).2.2.1
    (by decide) (by decide)

/-- Claim C8: every emitted image part carries an `image/` MIME type and
    non-empty cleaned data; attachments failing the checks are silently
    dropped and leave the assembled request unchanged. -/
theorem claim_C8_filter_correctness :
    (∀ f p, processFile f = some p →
        ∃ d t, p = ContentPart.image d t ∧ strStarts t "image/" = true ∧
          d ≠ "") ∧
    (∀ (message : Option String) (fs : List FileAttachment),
        buildContents message (some fs) =
          buildContents message
            (some (fs.filter (fun f => (processFile f).isSome)))) := by
  refine ⟨processFile_eq_some, ?_⟩
  intro message fs
  simp only [buildContents, emittedImages, filterMap_filter_isSome]

/-- Claim C8 witness: a valid attachment is emitted with its MIME type and
    non-empty data. -/
theorem claim_C8_witness :
    ∃ d t, ContentPart.image "AAAA" "image/png" = ContentPart.image d t ∧
      strStarts t "image/" = true ∧ d ≠ "" :=
  claim_C8_filter_correctness.1 ⟨some "f.png", some "image/png", some "AAAA"⟩
    (ContentPart.image "AAAA" "image/png") (by decide)

end ChatRoute

namespace ChatRoute

/-! ### Claim C6: data cleaning -/

theorem processFile_good (t d : String)
    (himg : strStarts t "image/" = true) (hd : d ≠ "")
    (hcl : cleanData d ≠ "") :
    processFile ⟨none, some t, some d⟩ = some (.image (cleanData d) t) := by
  have ht : t ≠ "" := by
    intro h; rw [h] at himg; exact absurd himg (by decide)
  simp only [processFile]
  split_ifs with h1 h2 h3 h4
  · exact absurd (by simpa [jsFalsyStr] using h1) ht
  · rw [Bool.not_eq_true'] at h2
    have h2t : strStarts t "image/" = false := h2
    rw [himg] at h2t
    exact absurd h2t (by decide)
  · exact absurd (by simpa [jsFalsyStr] using h3) hd
  · exact absurd h4 hcl
  · rfl

/-- Claim C6 counterexample: "AAAA,BBBB" has no `data:` prefix, so the
    claim says it is altered only by whitespace removal (of which it has
    none); the code still splits at the comma and transmits "BBBB". -/
theorem claim_C6_counterexample :
    strStarts "AAAA,BBBB" "data:" = false ∧
    stripWs "AAAA,BBBB" = "AAAA,BBBB" ∧
    processFile ⟨some "f.png", some "image/png", some "AAAA,BBBB"⟩ =
      some (.image "BBBB" "image/png") ∧
    ("BBBB" : String) ≠ "AAAA,BBBB" := by decide

/-- Claim C6 (amended): for an emitted attachment, when the data contains
    a comma the transmitted data is the segment between the first comma
    and the following comma (or the end of the string), with all
    whitespace removed — so a leading `data:<mime>;base64,` prefix
    followed by comma-free base64 is stripped; data without a comma is
    altered only by whitespace removal. -/
theorem claim_C6_amended_split_at_comma (t hd tl d : String)
    (himg : strStarts t "image/" = true)
    (hdat : d.data = hd.data ++ ',' :: tl.data)
    (hhd : hd.data.contains ',' = false)
    (htl : tl.data.contains ',' = false)
    (hne : stripWs tl ≠ "") :
    processFile ⟨none, some t, some d⟩ = some (.image (stripWs tl) t) ∧
    (∀ d2 : String, d2.data.contains ',' = false → stripWs d2 ≠ "" →
        processFile ⟨none, some t, some d2⟩ =
          some (.image (stripWs d2) t)) := by
  constructor
  · have hD : d ≠ "" := by
      intro h
      subst h
      have h2 : ([] : List Char) = hd.data ++ ',' :: tl.data := hdat
      simp at h2
    have hcont : d.data.contains ',' = true := by
      rw [hdat]
      simp
    have hsplit : splitChar ',' d.data = [hd.data, tl.data] := by
      rw [hdat, splitChar_append ',' hd.data tl.data hhd,
        splitChar_no_sep ',' tl.data htl]
    have hclean : cleanData d = stripWs tl := by
      simp only [cleanData, hcont, if_true, hsplit]
      rfl
    rw [processFile_good t d himg hD (by rw [hclean]; exact hne), hclean]
  · intro d2 hnc hne2
    have hclean2 : cleanData d2 = stripWs d2 := by
      simp only [cleanData, hnc, Bool.false_eq_true, if_false]
      rfl
    have hd2 : d2 ≠ "" := by
      intro h
      subst h
      exact hne2 (by decide)
    rw [processFile_good t d2 himg hd2 (by rw [hclean2]; exact hne2), hclean2]

/-- Claim C6 amended witness: a data-URL prefix with interior whitespace
    is normalized to pure base64. -/
theorem claim_C6_amended_witness :
    processFile ⟨none, some "image/png",
        some "data:image/png;base64, AA BB"⟩ =
      some (.image "AABB" "image/png") := by
  have h := (claim_C6_amended_split_at_comma "image/png"
    "data:image/png;base64" " AA BB" "data:image/png;base64, AA BB"
    (by decide) (by decide) (by decide) (by decide) (by decide)).1
  rw [h]
  decide

end ChatRoute
